import Mathlib

/-!
# A shallow embedding of the uvld runtime schema-validation library

The definitions below translate the JavaScript source (the single-file
implementation, together with the parallel TypeScript implementation
`src/try.ts` where a claim refers to it) into Lean.

Modelling conventions:
* `Value` is the universe of JavaScript runtime values the claims exercise
  (strings, numbers, booleans, `null`, `undefined`, arrays, plain objects).
  JavaScript numbers are modelled as integers; the claims only use integral
  numbers.
* A validator is a function `(value, path, origin) → list of items`.  In the
  source a validator invoked with fewer arguments fills the missing ones with
  the defaults `path = ""`, `origin = "value"`; every such call site below
  passes those defaults explicitly.  Every validator of the library either
  ignores `origin` or defaults it to `"value"`, so this is faithful.
* A member of a result list is either an issue record or a bare boolean:
  the source's `validations` extension functions may return booleans as a
  "no issue" sentinel (`v !== true` is filtered away by `define`).
* The issue record of the single-file implementation has fields
  `message/expected/received/path/origin`; the `tuple` length issue omits
  `origin`, hence `origin : Option String` with `none` for the omitted field.
* Fallible code (`parse` throwing `VError`) is modelled with `Except`.
-/

namespace UVLD

/-- JavaScript runtime values, as far as the claims need them. -/
inductive Value where
  | str (s : String)
  | num (n : Int)
  | bool (b : Bool)
  | null
  | undefined
  | arr (xs : List Value)
  | obj (fields : List (String × Value))

/-- JavaScript `typeof`. -/
def typeof : Value → String
  | .str _ => "string"
  | .num _ => "number"
  | .bool _ => "boolean"
  | .null => "object"
  | .undefined => "undefined"
  | .arr _ => "object"
  | .obj _ => "object"

/-- One validation failure, as produced by the single-file implementation:
`{ message, expected, received, path, origin }`.  The `tuple` length issue
is built without an `origin` key, hence the `Option`. -/
structure Issue where
  message : String
  expected : String
  received : Value
  path : String
  origin : Option String

/-- An element of a validator's result list: an issue object or a bare
boolean (the sentinel a `validations` entry may return). -/
inductive Item where
  | issue (i : Issue)
  | boolItem (b : Bool)

/-- Validator contract: `(value, path, origin) → Item[]`. -/
def Validator : Type := Value → String → String → List Item

/-- The filter `v !== true` applied by `define` to the flattened
`validations` results: drops the boolean `true` sentinel, keeps all else. -/
def notTrue : Item → Bool
  | .boolItem true => false
  | _ => true

/-- `define(type, validate)(message, validations)`: the leaf constructor.
On predicate failure, one issue with the override or generated message; on
success, run the `validations` with `(value, path)` (so `origin` defaults to
`"value"` in the callee), flatten, and drop `true` sentinels.  The source's
final `issues.length ? issues : []` is the identity and is elided. -/
def define (tag : String) (validate : Value → Bool) (message : String)
    (validations : List Validator) : Validator :=
  fun value path origin =>
    if validate value then
      (validations.flatMap (fun v => v value path "value")).filter notTrue
    else
      [Item.issue ⟨(if message = "" then "Expected " ++ tag ++ ", received " ++ typeof value
                    else message), tag, value, path, some origin⟩]

def isStr : Value → Bool
  | .str _ => true
  | _ => false

def isNum : Value → Bool
  | .num _ => true
  | _ => false

def isBool : Value → Bool
  | .bool _ => true
  | _ => false

def isArr : Value → Bool
  | .arr _ => true
  | _ => false

def isUndefined : Value → Bool
  | .undefined => true
  | _ => false

/-- `value !== null && typeof value === "object" && !Array.isArray(value)`:
the shape predicate of `object` and `record`. -/
def isObjLike : Value → Bool
  | .obj _ => true
  | _ => false

def string (message : String) (validations : List Validator) : Validator :=
  define "string" isStr message validations

def number (message : String) (validations : List Validator) : Validator :=
  define "number" isNum message validations

def boolean (message : String) (validations : List Validator) : Validator :=
  define "boolean" isBool message validations

/-- `optional(schema)`: `define("optional", v => v === undefined || schema(v).length === 0)`.
Note the inner call `schema(v)` passes neither path nor origin. -/
def optional (schema : Validator) (message : String) (validations : List Validator) : Validator :=
  define "optional" (fun v => isUndefined v || (schema v "" "value").length == 0) message validations

def isNull : Value → Bool
  | .null => true
  | _ => false

/-- `nullable(schema)`: `define("nullable", v => v === null || schema(v).length === 0)`. -/
def nullable (schema : Validator) (message : String) (validations : List Validator) : Validator :=
  define "nullable" (fun v => isNull v || (schema v "" "value").length == 0) message validations

/-- `${path}${path ? "." : ""}${key}`: dotted path accumulation. -/
def joinPath (path key : String) : String :=
  path ++ (if path = "" then "" else ".") ++ key

/-- `Object.keys(value)` for the modelled values. -/
def objKeys : Value → List String
  | .obj fields => fields.map Prod.fst
  | _ => []

/-- `Object.entries(value)` for the modelled values. -/
def objEntries : Value → List (String × Value)
  | .obj fields => fields
  | _ => []

/-- `value[key]` on an object: the field's value, or `undefined` when absent. -/
def getKey : Value → String → Value
  | .obj fields, k =>
      match fields.lookup k with
      | some v => v
      | none => .undefined
  | _, _ => .undefined

/-- `Array.prototype.join(", ")` on a list of strings. -/
def joinComma : List String → String
  | [] => ""
  | [x] => x
  | x :: xs => x ++ ", " ++ joinComma xs

/-- `Object.keys(value).filter(key => !Object.keys(schema).includes(key))`. -/
def extraKeysOf (schemaKeys valueKeys : List String) : List String :=
  valueKeys.filter (fun k => !(schemaKeys.contains k))

/-- `record(keySchema, valueSchema, message, validations)`: every own entry's
key is checked by `keySchema` at the entry path with origin `"key"`, its value
by `valueSchema` at the same path (origin defaulting to `"value"`). -/
def record (keySchema valueSchema : Validator) (message : String)
    (validations : List Validator) : Validator :=
  define "record" isObjLike message
    ((fun value path _origin =>
        (objEntries value).flatMap (fun kv =>
          keySchema (.str kv.1) (joinPath path kv.1) "key" ++
          valueSchema kv.2 (joinPath path kv.1) "value"))
      :: validations)

/-- `object(schema, message, validations, exact)`. -/
def object (schema : List (String × Validator)) (message : String)
    (validations : List Validator) (exact : Bool) : Validator :=
  define "object" isObjLike message
    ((fun value path _origin =>
        let extra := if exact then extraKeysOf (schema.map Prod.fst) (objKeys value) else []
        if extra.length ≠ 0 then
          [Item.issue ⟨"Unexpected keys found: " ++ joinComma extra, "object", value, path,
            some "key"⟩]
        else
          schema.flatMap (fun ks => ks.2 (getKey value ks.1) (joinPath path ks.1) "value"))
      :: validations)

/-- `strict(schema, message, validations) = object(schema, message, validations, true)`. -/
def strict (schema : List (String × Validator)) (message : String)
    (validations : List Validator) : Validator :=
  object schema message validations true

/-- `value` as an array's element list (the `tuple` recursion entry only
reads it after `Array.isArray` held). -/
def toList : Value → List Value
  | .arr xs => xs
  | _ => []

/-- `tuple(schemas, message, validations)`: length mismatch yields a single
issue (whose object literal has no `origin` key); on a length match each
element `i` is validated against `schemas[i]` at path `[i]`. -/
def tuple (schemas : List Validator) (message : String)
    (validations : List Validator) : Validator :=
  define "tuple" isArr message
    ((fun value path _origin =>
        let xs := toList value
        if xs.length ≠ schemas.length then
          [Item.issue ⟨"Expected tuple of length " ++ toString schemas.length ++
              ", received " ++ toString xs.length, "tuple", .num xs.length, path, none⟩]
        else
          schemas.enum.flatMap (fun p =>
            p.2 (xs.getD p.1 .undefined) (path ++ "[" ++ toString p.1 ++ "]") "value"))
      :: validations)

/-- JavaScript `ToNumber` coercion for the non-array, non-string values the
`min`/`max` numeric branch can receive (`undefined` and plain objects coerce
to `NaN`, modelled as `none`; every `NaN` comparison is false). -/
def toNumCoerce : Value → Option Int
  | .num n => some n
  | .bool b => some (if b then 1 else 0)
  | .null => some 0
  | _ => none

/-- JavaScript `value >= m` under numeric coercion. -/
def jsGE (v : Value) (m : Int) : Bool :=
  match toNumCoerce v with
  | some n => decide (m ≤ n)
  | none => false

/-- The `min` predicate: length for arrays/strings, size for maps/sets (not
modelled: no claim uses them), otherwise the numeric comparison `value >= minValue`. -/
def minPred (m : Int) : Value → Bool
  | .arr xs => decide (m ≤ (xs.length : Int))
  | .str s => decide (m ≤ (s.length : Int))
  | v => jsGE v m

/-- `min(minValue, ...args)`: `define("min", pred)("Min " + minValue, ...args)`. -/
def min (minValue : Int) (validations : List Validator) : Validator :=
  define "min" (minPred minValue) ("Min " ++ toString minValue) validations

/-- `or(...schemas)`: concatenate every alternative's result (each called with
`(value, path)`, origin defaulting) and return the concatenation exactly when
its total length equals the number of schemas, otherwise the empty list. -/
def or (schemas : List Validator) : Validator :=
  fun value path _origin =>
    let issues := (schemas.map (fun s => s value path "value")).flatten
    if issues.length = schemas.length then issues else []

/-- `and(...schemas)`: `schemas.flatMap(schema => schema(value, path))`. -/
def and (schemas : List Validator) : Validator :=
  fun value path _origin => schemas.flatMap (fun s => s value path "value")

/-- `transform(schema, transformer) = (value) => schema(transformer(value))`:
the returned arrow takes only `value`, so a call with `(value, path, origin)`
discards the extra arguments and `schema` runs at the default `("", "value")`. -/
def transform (schema : Validator) (transformer : Value → Value) : Validator :=
  fun value _path _origin => schema (transformer value) "" "value"

/-- The error object `parse`/`safeParse` build: name tag elided, `message`
and `issues` carried. -/
structure VError where
  message : String
  issues : List Item

/-- `issues[0]?.message`, then the `Error` constructor's coercion: an issue
head yields its message; a boolean head or an empty list yields `undefined`,
which the `Error` constructor turns into the empty message. -/
def firstMessage : List Item → String
  | .issue i :: _ => i.message
  | _ => ""

/-- `parse(schema, value)`: `value` itself when `schema(value)` is empty,
otherwise a thrown `VError` (modelled with `Except.error`). -/
def parse (schema : Validator) (value : Value) : Except VError Value :=
  let issues := schema value "" "value"
  if issues.length ≠ 0 then .error ⟨firstMessage issues, issues⟩ else .ok value

/-- The result of `safeParse`: `{success: true, data}` or `{success: false, error}`. -/
inductive SPResult where
  | success (data : Value)
  | failure (error : VError)

/-- `safeParse(schema, value)`. -/
def safeParse (schema : Validator) (value : Value) : SPResult :=
  let issues := schema value "" "value"
  if issues.length ≠ 0 then .failure ⟨firstMessage issues, issues⟩ else .success value

end UVLD

namespace TryTs

open UVLD

/-- The parallel TypeScript implementation's `optional`: forwards
`(value, path, origin)` to the wrapped schema unchanged and appends the
extra `validations` results. -/
def optional (schema : Validator) (validations : List Validator) : Validator :=
  fun value path origin =>
    match value with
    | .undefined => []
    | _ => schema value path origin ++ validations.flatMap (fun v => v value path origin)

/-- The parallel TypeScript implementation's `nullable`. -/
def nullable (schema : Validator) (validations : List Validator) : Validator :=
  fun value path origin =>
    match value with
    | .null => []
    | _ => schema value path origin ++ validations.flatMap (fun v => v value path origin)

end TryTs

section Claims

open UVLD

/-- Helper: unfolding `define` when the predicate holds and the
`validations` list is a single recursion entry followed by nothing:
the result is the entry's output filtered for `true` sentinels. -/
theorem define_single_entry (tag : String) (validate : Value → Bool) (msg : String)
    (entry : Validator) (value : Value) (path origin : String)
    (h : validate value = true) :
    UVLD.define tag validate msg [entry] value path origin =
      (entry value path "value").filter notTrue := by
  simp [UVLD.define, h]

/-- Claim C1: the source's `or` compares the **total number of issues** in the
concatenation with the number of schemas, not the count of alternatives that
failed.  Against the claim: `or(string(), and(number(), number()))` applied to
the valid string `"x"` returns the two issues of the failing second
alternative (the passing first alternative notwithstanding), because the
total `0 + 2` equals the schema count `2`; and `or(and(string(), number()))`
applied to `true` returns the empty list (declaring `true` valid) although
its only alternative failed with two issues, because `2 ≠ 1`. -/
theorem or_compares_total_issue_count :
    UVLD.or [UVLD.string "" [], UVLD.and [UVLD.number "" [], UVLD.number "" []]]
        (.str "x") "" "value" =
      [Item.issue ⟨"Expected number, received string", "number", .str "x", "", some "value"⟩,
       Item.issue ⟨"Expected number, received string", "number", .str "x", "", some "value"⟩] ∧
    UVLD.string "" [] (.str "x") "" "value" = [] ∧
    UVLD.or [UVLD.and [UVLD.string "" [], UVLD.number "" []]] (.bool true) "" "value" = [] ∧
    (UVLD.and [UVLD.string "" [], UVLD.number "" []] (.bool true) "" "value").length = 2 ∧
    UVLD.or [UVLD.string "" [], UVLD.number "" []] (.bool true) "" "value" =
      [Item.issue ⟨"Expected string, received boolean", "string", .bool true, "", some "value"⟩,
       Item.issue ⟨"Expected number, received boolean", "number", .bool true, "", some "value"⟩] ∧
    UVLD.or [UVLD.string "" [], UVLD.number "" []] (.str "x") "" "value" = [] :=
  ⟨rfl, rfl, rfl, rfl, rfl, rfl⟩

/-- Claim C2: in the single-file implementation, `optional(schema)` on a
defined failing value does **not** delegate to `schema`: it returns the
generic `"Expected optional"` issue built by `define` (and the inner
`schema(v)` probe receives neither path nor origin), instead of `schema`'s
own issues at the caller's path and origin.  `undefined` (resp. `null` for
`nullable`) still yields no issues.  The parallel TypeScript implementation
does satisfy the claim: its `optional`/`nullable` forward
`(value, path, origin)` unchanged and return exactly the wrapped schema's
result on defined (resp. non-null) values. -/
theorem optional_nullable_delegation :
    UVLD.optional (UVLD.string "" []) "" [] (.num 42) "a" "value" =
      [Item.issue ⟨"Expected optional, received number", "optional", .num 42, "a", some "value"⟩] ∧
    UVLD.string "" [] (.num 42) "a" "value" =
      [Item.issue ⟨"Expected string, received number", "string", .num 42, "a", some "value"⟩] ∧
    UVLD.optional (UVLD.string "" []) "" [] (.num 42) "a" "value" ≠
      UVLD.string "" [] (.num 42) "a" "value" ∧
    UVLD.optional (UVLD.string "" []) "" [] .undefined "a" "value" = [] ∧
    UVLD.nullable (UVLD.string "" []) "" [] .null "a" "value" = [] ∧
    (∀ (schema : Validator) (value : Value) (path origin : String),
      TryTs.optional schema [] value path origin =
        (if isUndefined value then [] else schema value path origin)) ∧
    (∀ (schema : Validator) (value : Value) (path origin : String),
      TryTs.nullable schema [] value path origin =
        (if isNull value then [] else schema value path origin)) := by
  refine ⟨rfl, rfl, ?_, rfl, rfl, ?_, ?_⟩
  · intro h
    have h2 : (("Expected optional, received number" : String) =
        "Expected string, received number") ∧ (("optional" : String) = "string") := by
      have := List.head_eq_of_cons_eq h
      exact ⟨congrArg Issue.message (by injection this), congrArg Issue.expected (by injection this)⟩
    simp at h2
  · intro schema value path origin
    cases value <;> simp [TryTs.optional, isUndefined]
  · intro schema value path origin
    cases value <;> simp [TryTs.nullable, isNull]

/-- Claim C3 counterexample: `and(string(), min(3))` applied to `42` returns
exactly **one** issue, not the two the claim states — `min(3)` passes on `42`
because the non-sized branch of its predicate compares numerically and
`42 >= 3` holds. -/
theorem and_string_min_counterexample :
    (UVLD.and [UVLD.string "" [], UVLD.min 3 []] (.num 42) "" "value").length = 1 := rfl

/-- Claim C3 (amended): `and(string(), min(3))` against `42` yields exactly
the single `"Expected string"` issue, since `min(3)` succeeds on `42`
(numeric comparison `42 >= 3`); a variant whose constraint actually fails,
`and(string(), min(100))`, yields two issues.  In general `and(...schemas)`
is the concatenation of every schema's issues, in order with no
short-circuit, and is empty exactly when every schema passes. -/
theorem and_concatenates_all_issues :
    UVLD.and [UVLD.string "" [], UVLD.min 3 []] (.num 42) "" "value" =
      [Item.issue ⟨"Expected string, received number", "string", .num 42, "", some "value"⟩] ∧
    UVLD.min 3 [] (.num 42) "" "value" = [] ∧
    UVLD.and [UVLD.string "" [], UVLD.min 100 []] (.num 42) "" "value" =
      [Item.issue ⟨"Expected string, received number", "string", .num 42, "", some "value"⟩,
       Item.issue ⟨"Min 100", "min", .num 42, "", some "value"⟩] ∧
    (∀ (schemas : List Validator) (value : Value) (path origin : String),
      UVLD.and schemas value path origin = schemas.flatMap (fun s => s value path "value")) ∧
    (∀ (schemas : List Validator) (value : Value) (path origin : String),
      UVLD.and schemas value path origin = [] ↔ ∀ s ∈ schemas, s value path "value" = []) := by
  refine ⟨rfl, rfl, rfl, fun _ _ _ _ => rfl, ?_⟩
  intro schemas value path origin
  simp [UVLD.and, List.flatMap_eq_nil_iff]

/-- Claim C4 counterexample: a `validations` entry is invoked with
`(value, path)` only, so it does not see the caller's `origin`.  With the
entry `min(5)` attached to `string()` and the outer call made at origin
`"key"`, the produced issue carries origin `"value"`; invoking the same
entry directly with origin `"key"` would carry `"key"`. -/
theorem define_drops_origin_counterexample :
    UVLD.string "" [UVLD.min 5 []] (.str "ab") "p" "key" =
      [Item.issue ⟨"Min 5", "min", .str "ab", "p", some "value"⟩] ∧
    UVLD.min 5 [] (.str "ab") "p" "key" =
      [Item.issue ⟨"Min 5", "min", .str "ab", "p", some "key"⟩] ∧
    UVLD.string "" [UVLD.min 5 []] (.str "ab") "p" "key" ≠
      UVLD.min 5 [] (.str "ab") "p" "key" := by
  refine ⟨rfl, rfl, ?_⟩
  intro h
  have h2 : (some "value" : Option String) = some "key" := by
    have := List.head_eq_of_cons_eq h
    exact congrArg Issue.origin (by injection this)
  simp at h2

/-- Claim C4 (amended): when the primary predicate accepts the value, every
entry of `validations` runs against `(value, path)` — with `origin` not
forwarded, the callee's default `"value"` applies — in insertion order with
no short-circuit; the results are flattened, pure-`true` boolean entries are
dropped, and the remainder (possibly empty) is returned.  The concrete
conjunct shows a `true`-returning entry contributing nothing while the
following entry's issue is kept. -/
theorem define_runs_validations_in_order :
    (∀ (tag : String) (validate : Value → Bool) (msg : String) (vs : List Validator)
        (value : Value) (path origin : String), validate value = true →
      UVLD.define tag validate msg vs value path origin =
        vs.flatMap (fun v => (v value path "value").filter notTrue)) ∧
    UVLD.define "t" (fun _ => true) ""
        [fun _ _ _ => [Item.boolItem true], UVLD.min 5 []] (.str "ab") "" "value" =
      [Item.issue ⟨"Min 5", "min", .str "ab", "", some "value"⟩] := by
  constructor
  · intro tag validate msg vs value path origin h
    simp [UVLD.define, h, List.filter_flatMap]
  · rfl

/-- Claim C5: whenever a strict object finds keys on the value that are
absent from the schema, it returns the single extra-keys issue
`{message: "Unexpected keys found: <comma-joined keys>", expected: "object",
origin: "key"}` and consults no per-field validator (the field validators
are universally quantified and never invoked).  On the spec's example
`strict({k: string()})` against `{k: "v", extra: 1}` the single issue's
message is `"Unexpected keys found: extra"`. -/
theorem strict_extra_key_short_circuit :
    (∀ (fsch : List (String × Validator)) (msg : String) (fields : List (String × Value))
        (path origin : String),
      extraKeysOf (fsch.map Prod.fst) (fields.map Prod.fst) ≠ [] →
      UVLD.strict fsch msg [] (.obj fields) path origin =
        [Item.issue ⟨"Unexpected keys found: " ++
            joinComma (extraKeysOf (fsch.map Prod.fst) (fields.map Prod.fst)),
          "object", .obj fields, path, some "key"⟩]) ∧
    UVLD.strict [("k", UVLD.string "" [])] "" []
        (.obj [("k", .str "v"), ("extra", .num 1)]) "" "value" =
      [Item.issue ⟨"Unexpected keys found: extra", "object",
        .obj [("k", .str "v"), ("extra", .num 1)], "", some "key"⟩] := by
  constructor
  · intro fsch msg fields path origin h
    have hlen : (extraKeysOf (fsch.map Prod.fst) (fields.map Prod.fst)).length ≠ 0 := by
      simpa [List.length_eq_zero] using h
    simp only [UVLD.strict, UVLD.object]
    rw [define_single_entry _ _ _ _ _ _ _ rfl]
    simp [objKeys, hlen, notTrue]
  · rfl

/-- Claim C6: when an array's length differs from the number of tuple
schemas, `tuple` returns exactly one issue tagged `"tuple"` whose `received`
is the actual length (and whose object literal carries no `origin` key), and
skips the element checks; when the lengths match, each element `i` is
validated against `schemas[i]` at path segment `[i]`.  On the example
`tuple([string(), number()])` against `["x"]` the single issue has
`received == 1`. -/
theorem tuple_length_short_circuit :
    UVLD.tuple [UVLD.string "" [], UVLD.number "" []] "" [] (.arr [.str "x"]) "" "value" =
      [Item.issue ⟨"Expected tuple of length 2, received 1", "tuple", .num 1, "", none⟩] ∧
    (∀ (schemas : List Validator) (msg : String) (xs : List Value) (path origin : String),
      xs.length ≠ schemas.length →
      UVLD.tuple schemas msg [] (.arr xs) path origin =
        [Item.issue ⟨"Expected tuple of length " ++ toString schemas.length ++ ", received " ++
            toString xs.length, "tuple", .num xs.length, path, none⟩]) ∧
    (∀ (schemas : List Validator) (msg : String) (xs : List Value) (path origin : String),
      xs.length = schemas.length →
      UVLD.tuple schemas msg [] (.arr xs) path origin =
        schemas.enum.flatMap (fun p =>
          (p.2 (xs.getD p.1 .undefined) (path ++ "[" ++ toString p.1 ++ "]") "value").filter
            notTrue)) := by
  refine ⟨rfl, ?_, ?_⟩
  · intro schemas msg xs path origin h
    simp only [UVLD.tuple]
    rw [define_single_entry _ _ _ _ _ _ _ rfl]
    simp [toList, h, notTrue]
  · intro schemas msg xs path origin h
    simp only [UVLD.tuple]
    rw [define_single_entry _ _ _ _ _ _ _ rfl]
    simp [toList, h, List.filter_flatMap]

/-- Claim C7: object field paths accumulate by joining the parent path and
the key with a dot (the join degenerates to the bare key at the empty root
path): `object({a: object({b: number()})})` validated at the default root
against `{a: {b: "x"}}` yields exactly one issue whose path is `"a.b"`. -/
theorem object_path_accumulation :
    UVLD.object [("a", UVLD.object [("b", UVLD.number "" [])] "" [] false)] "" [] false
        (.obj [("a", .obj [("b", .str "x")])]) "" "value" =
      [Item.issue ⟨"Expected number, received string", "number", .str "x", "a.b", some "value"⟩] ∧
    (∀ key : String, joinPath "" key = key) ∧
    (∀ (path key : String), path ≠ "" → joinPath path key = path ++ "." ++ key) := by
  refine ⟨rfl, ?_, ?_⟩
  · intro key
    simp [joinPath]
  · intro path key h
    simp [joinPath, h]

/-- Claim C8: `record(keySchema, valueSchema)` on an object checks, for every
own entry, the key string against `keySchema` at the entry's joined path
with origin `"key"` and the value against `valueSchema` at the **same** path
with origin `"value"` (the value call passes no origin, so the default
`"value"` applies).  The concrete conjunct shows a key issue and a value
issue of one entry sharing the path `"ab"` and differing only in origin. -/
theorem record_key_value_same_path :
    (∀ (ks vs : Validator) (msg : String) (fields : List (String × Value))
        (path origin : String),
      UVLD.record ks vs msg [] (.obj fields) path origin =
        (fields.flatMap (fun kv =>
          ks (.str kv.1) (joinPath path kv.1) "key" ++
          vs kv.2 (joinPath path kv.1) "value")).filter notTrue) ∧
    UVLD.record (UVLD.min 3 []) (UVLD.number "" []) "" []
        (.obj [("ab", .str "x")]) "" "value" =
      [Item.issue ⟨"Min 3", "min", .str "ab", "ab", some "key"⟩,
       Item.issue ⟨"Expected number, received string", "number", .str "x", "ab", some "value"⟩] := by
  constructor
  · intro ks vs msg fields path origin
    simp only [UVLD.record]
    rw [define_single_entry _ _ _ _ _ _ _ rfl]
    simp [objEntries]
  · rfl

/-- Claim C9: for every schema `s` and value `v`, `parse(s, v)` returns `v`
unchanged exactly when `s(v)` (called at the defaults, path `""` and origin
`"value"`) yields no issues, and otherwise throws an error carrying the
first issue's message and the full issue list; `safeParse(s, v)` succeeds
with `v` as `data` exactly when `parse` does not throw, and a failed
`safeParse` carries an error with the same message/issues pairing as the
thrown one. -/
theorem parse_safeParse_agreement :
    ∀ (s : Validator) (v : Value),
      (UVLD.parse s v = .ok v ↔ s v "" "value" = []) ∧
      (UVLD.safeParse s v = .success v ↔ UVLD.parse s v = .ok v) ∧
      (∀ e : VError, UVLD.parse s v = .error e ↔ UVLD.safeParse s v = .failure e) ∧
      (∀ e : VError, UVLD.parse s v = .error e →
        e.message = firstMessage (s v "" "value") ∧ e.issues = s v "" "value") := by
  intro s v
  by_cases h : (s v "" "value").length = 0
  · have h0 : s v "" "value" = [] := List.length_eq_zero.mp h
    refine ⟨?_, ?_, ?_, ?_⟩ <;> simp [UVLD.parse, UVLD.safeParse, h0]
  · have h0 : s v "" "value" ≠ [] := by simpa [List.length_eq_zero] using h
    refine ⟨?_, ?_, ?_, ?_⟩
    · simp [UVLD.parse, h, h0]
    · simp [UVLD.parse, UVLD.safeParse, h]
    · intro e
      simp [UVLD.parse, UVLD.safeParse, h]
    · intro e he
      have : VError.mk (firstMessage (s v "" "value")) (s v "" "value") = e := by
        simpa [UVLD.parse, h] using he
      subst this
      exact ⟨rfl, rfl⟩

/-- Claim C10: the validator returned by `transform(schema, transformer)`
only binds `value`, so a call with `(v, p, o)` discards `p` and `o` and runs
`schema` on the transformed value at the default root path `""` and origin
`"value"`.  Consequently an issue produced beneath a `transform` inside a
nested composite reports its path relative to the transform point: the
identity-transformed inner object below key `"a"` reports `"b"`, not
`"a.b"`. -/
theorem transform_discards_path_and_origin :
    (∀ (schema : Validator) (transformer : Value → Value) (v : Value) (p o : String),
      UVLD.transform schema transformer v p o = schema (transformer v) "" "value") ∧
    UVLD.object
        [("a", UVLD.transform (UVLD.object [("b", UVLD.number "" [])] "" [] false)
            (fun x => x))] "" [] false
        (.obj [("a", .obj [("b", .str "x")])]) "" "value" =
      [Item.issue ⟨"Expected number, received string", "number", .str "x", "b", some "value"⟩] :=
  ⟨fun _ _ _ _ _ => rfl, rfl⟩

end Claims
